import Mathlib

/-!
Verification of the kraken-proxy request-handling pipeline and its
Docker-registry hijacker, shallowly embedded from the Go sources of
package pkg (the MITM proxy and the registry hijacker).

Modelling conventions:
* Go strings are Lean Strings; byte counts are character counts
  (all strings involved are ASCII).
* The network is an oracle: an attempt function maps a candidate
  registry address and effective repository name to the combined
  outcome of authenticating to that candidate and issuing the
  redirected GET (an error message, or a response).  For a fixed
  request the target URL is determined by the candidate address and
  the effective repository (query type and tag are fixed), so keying
  the oracle on those two strings loses no generality.
* The response writer is modelled as an event log; writes to it are
  assumed to succeed (writer failures on the hijacker's direct writes
  are not modelled; failures of the body copy in the pipeline are
  modelled by the copyCap environment parameter).
* The compiled route regex (anchored /v2/(.+)/(manifest|blob)s/(.+))
  is implemented directly with Go's greedy leftmost-first capture
  semantics: the repository group takes the longest match that lets
  the rest of the pattern succeed.  A rule's configured matching_regex
  is modelled as an opaque Boolean predicate on hosts.
-/

namespace KrakenProxy

/-! ## String helpers -/

/-- Boolean prefix test on character lists (strings.HasPrefix). -/
def isPrefixB : List Char → List Char → Bool
  | [], _ => true
  | _ :: _, [] => false
  | a :: as, b :: bs => decide (a = b) && isPrefixB as bs

theorem isPrefixB_iff (p : List Char) : ∀ l, isPrefixB p l = true ↔ ∃ s, l = p ++ s := by
  induction p with
  | nil =>
    intro l
    simp [isPrefixB]
  | cons a as ih =>
    intro l
    cases l with
    | nil => simp [isPrefixB]
    | cons b bs =>
      simp only [isPrefixB, Bool.and_eq_true, decide_eq_true_eq, ih bs, List.cons_append]
      constructor
      · rintro ⟨hab, s, hs⟩
        exact ⟨s, by simp [hab, hs]⟩
      · rintro ⟨s, hs⟩
        rw [List.cons.injEq] at hs
        exact ⟨hs.1.symm, s, hs.2⟩

/-- strings.HasPrefix(s, pre). -/
def hasPrefix (s pre : String) : Bool := isPrefixB pre.data s.data

/-- Drop all trailing characters of a list satisfying p. -/
def trimData (l : List Char) : List Char :=
  (l.reverse.dropWhile (fun c => decide (c = '/'))).reverse

/-- strings.TrimRight(s, "/"). -/
def trimRightSlashes (s : String) : String := ⟨trimData s.data⟩

theorem dropWhile_append_cons (p : Char → Bool) (u : List Char) (c : Char) (w : List Char)
    (hc : p c = false) :
    List.dropWhile p (u ++ c :: w) = List.dropWhile p u ++ c :: w := by
  induction u with
  | nil => simp [List.dropWhile, hc]
  | cons a u' ih =>
    by_cases hpa : p a = true
    · simp [List.dropWhile, hpa, ih]
    · simp at hpa
      simp [List.dropWhile, hpa]

theorem trimData_append_cons (a : List Char) (c : Char) (b : List Char) (hc : c ≠ '/') :
    trimData (a ++ c :: b) = a ++ c :: trimData b := by
  unfold trimData
  rw [show (a ++ c :: b).reverse = b.reverse ++ c :: a.reverse by simp]
  rw [dropWhile_append_cons _ _ _ _ (by simpa using hc)]
  simp

/-- strings.ReplaceAll scanning loop for a non-empty pattern.  When the
pattern matches at the current position the replacement is emitted and
the next (pattern length - 1) characters are skipped via the counter
(the first matched character is consumed by the step itself). -/
def replaceAllScan (pat repl : List Char) : List Char → Nat → List Char
  | [], _ => []
  | _ :: cs, skip + 1 => replaceAllScan pat repl cs skip
  | c :: cs, 0 =>
    if isPrefixB pat (c :: cs) then
      repl ++ replaceAllScan pat repl cs (pat.length - 1)
    else
      c :: replaceAllScan pat repl cs 0

/-- strings.ReplaceAll(s, old, new) on character lists.  The Go function
is only ever called with the non-empty patterns "%r", "%t" and ".";
the empty-pattern case (where Go interleaves the replacement) is left
as the identity since it is unreachable here. -/
def replaceAllL (s pat repl : List Char) : List Char :=
  match pat with
  | [] => s
  | _ :: _ => replaceAllScan pat repl s 0

/-- strings.ReplaceAll(s, old, new). -/
def replaceAll (s pat repl : String) : String := ⟨replaceAllL s.data pat.data repl.data⟩

/-- Boolean substring test (does pat occur anywhere in the list?). -/
def hasSubL (pat : List Char) : List Char → Bool
  | [] => pat.isEmpty
  | c :: cs => isPrefixB pat (c :: cs) || hasSubL pat cs

/-! ## Repository rewriting (rewriteRepository) -/

/-- rewriteRepository from the hijacker: empty rule means no rewrite,
otherwise substitute %r then %t in the rule text. -/
def rewriteRepository (rewriteRepoRule repository tag : String) : String :=
  if rewriteRepoRule = "" then
    repository
  else
    let newRepository := replaceAll rewriteRepoRule "%r" repository
    replaceAll newRepository "%t" tag

theorem rewriteRepository_empty (repository tag : String) :
    rewriteRepository "" repository tag = repository := rfl

/-! ## Registry URL path parsing (parseRegistryURLPath) -/

/-- The registryQueryType constants manifestQuery = "manifest" and
blobQuery = "blob". -/
inductive registryQueryType where
  | manifest
  | blob
deriving DecidableEq, Repr

/-- string(queryType): the underlying string of the constant. -/
def queryTypeString : registryQueryType → String
  | .manifest => "manifest"
  | .blob => "blob"

/-- All decompositions of a list into prefix ++ suffix, in order of
increasing prefix length. -/
def allSplits : List Char → List (List Char × List Char)
  | [] => [([], [])]
  | c :: cs => ([], c :: cs) :: (allSplits cs).map (fun pr => (c :: pr.1, pr.2))

theorem allSplits_eq_append : ∀ (l : List Char) {pr : List Char × List Char},
    pr ∈ allSplits l → pr.1 ++ pr.2 = l := by
  intro l
  induction l with
  | nil =>
    intro pr h
    simp [allSplits] at h
    simp [h]
  | cons c cs ih =>
    intro pr h
    rcases List.mem_cons.mp h with h1 | h2
    · simp [h1]
    · rcases List.mem_map.mp h2 with ⟨q, hq, rfl⟩
      have hqq := ih hq
      simp only [List.cons_append]
      rw [hqq]

/-- Check one split (repository candidate, remainder) against the rest
of the route pattern /(manifest|blob)s/(.+)$ . -/
def checkSplit (pr : List Char × List Char) :
    Option (registryQueryType × String × String) :=
  if pr.1 = [] then none
  else if isPrefixB "/manifests/".data pr.2 then
    let g := pr.2.drop 11
    if g = [] then none else some (.manifest, ⟨pr.1⟩, ⟨g⟩)
  else if isPrefixB "/blobs/".data pr.2 then
    let g := pr.2.drop 7
    if g = [] then none else some (.blob, ⟨pr.1⟩, ⟨g⟩)
  else none

/-- Keep the last valid split: the repository capture group is greedy,
so the longest repository wins. -/
def lastValid (l : List (List Char × List Char)) :
    Option (registryQueryType × String × String) :=
  l.foldl (fun acc pr => match checkSplit pr with | some v => some v | none => acc) none

theorem lastValid_sound : ∀ (l : List (List Char × List Char))
    (acc : Option (registryQueryType × String × String)) {v},
    l.foldl (fun acc pr => match checkSplit pr with | some v => some v | none => acc) acc
      = some v →
    (∃ pr ∈ l, checkSplit pr = some v) ∨ acc = some v := by
  intro l
  induction l with
  | nil =>
    intro acc v h
    right
    simpa [List.foldl] using h
  | cons p l' ih =>
    intro acc v h
    simp [List.foldl] at h
    rcases ih _ h with ⟨pr, hpr, hchk⟩ | hstep
    · exact Or.inl ⟨pr, by simp [hpr], hchk⟩
    · rcases hc : checkSplit p with _ | w
      · rw [hc] at hstep
        exact Or.inr hstep
      · rw [hc] at hstep
        exact Or.inl ⟨p, by simp, hc.trans hstep⟩

/-- parseRegistryURLPath: match the URL path against the anchored route
regex, returning (queryType, repository, tag) on success. -/
def parseRegistryURLPath (urlPath : String) :
    Option (registryQueryType × String × String) :=
  if isPrefixB "/v2/".data urlPath.data then
    lastValid (allSplits (urlPath.data.drop 4))
  else none

example : parseRegistryURLPath "/v2/ubuntu/manifests/latest"
    = some (.manifest, "ubuntu", "latest") := by decide

example : parseRegistryURLPath "/v2/a/manifests/b/blobs/c"
    = some (.blob, "a/manifests/b", "c") := by decide

example : parseRegistryURLPath "/v2/lib/ubuntu/blobs/sha256:abc"
    = some (.blob, "lib/ubuntu", "sha256:abc") := by decide

example : parseRegistryURLPath "/v2/" = none := by decide

example : parseRegistryURLPath "/v2/a/manifests/" = none := by decide

example : parseRegistryURLPath "/other" = none := by decide

/-- The literal separator the route regex requires between repository
and tag for each query type. -/
def querySep : registryQueryType → List Char
  | .manifest => "/manifests/".data
  | .blob => "/blobs/".data

theorem checkSplit_sound {pr : List Char × List Char}
    {v : registryQueryType × String × String} (h : checkSplit pr = some v) :
    pr.1 ≠ [] ∧ v.2.1.data = pr.1 ∧ v.2.2.data ≠ [] ∧
      pr.2 = querySep v.1 ++ v.2.2.data := by
  unfold checkSplit at h
  by_cases h1 : pr.1 = []
  · rw [if_pos h1] at h
    cases h
  rw [if_neg h1] at h
  by_cases h2 : isPrefixB "/manifests/".data pr.2 = true
  · rw [if_pos h2] at h
    obtain ⟨s, hs⟩ := (isPrefixB_iff _ _).mp h2
    have hdrop : pr.2.drop 11 = s := by
      rw [hs, show (11 : Nat) = "/manifests/".data.length from rfl, List.drop_left]
    rw [hdrop] at h
    by_cases h3 : s = []
    · rw [if_pos h3] at h
      cases h
    · rw [if_neg h3] at h
      cases h
      exact ⟨h1, rfl, h3, by rw [hs]; rfl⟩
  · rw [if_neg h2] at h
    by_cases h4 : isPrefixB "/blobs/".data pr.2 = true
    · rw [if_pos h4] at h
      obtain ⟨s, hs⟩ := (isPrefixB_iff _ _).mp h4
      have hdrop : pr.2.drop 7 = s := by
        rw [hs, show (7 : Nat) = "/blobs/".data.length from rfl, List.drop_left]
      rw [hdrop] at h
      by_cases h3 : s = []
      · rw [if_pos h3] at h
        cases h
      · rw [if_neg h3] at h
        cases h
        exact ⟨h1, rfl, h3, by rw [hs]; rfl⟩
    · rw [if_neg h4] at h
      cases h

theorem parse_some_decomp {p : String} {qt : registryQueryType} {repo tag : String}
    (h : parseRegistryURLPath p = some (qt, repo, tag)) :
    repo.data ≠ [] ∧ tag.data ≠ [] ∧
      p.data = "/v2/".data ++ repo.data ++ querySep qt ++ tag.data := by
  unfold parseRegistryURLPath at h
  by_cases hpre : isPrefixB "/v2/".data p.data = true
  · rw [if_pos hpre] at h
    obtain ⟨rest, hrest⟩ := (isPrefixB_iff _ _).mp hpre
    have hdrop : p.data.drop 4 = rest := by
      rw [hrest, show (4 : Nat) = "/v2/".data.length from rfl, List.drop_left]
    rw [hdrop] at h
    rcases lastValid_sound _ _ h with ⟨pr, hmem, hchk⟩ | hacc
    · have hsplit := allSplits_eq_append rest hmem
      obtain ⟨hne, hrepo, htag, hsep⟩ := checkSplit_sound hchk
      refine ⟨by rw [hrepo]; exact hne, htag, ?_⟩
      rw [hrest, ← hsplit, hrepo, hsep]
      simp [List.append_assoc]
    · cases hacc
  · rw [if_neg hpre] at h
    cases h

theorem parse_some_trim_facts {p : String} {x : registryQueryType × String × String}
    (h : parseRegistryURLPath p = some x) :
    hasPrefix (trimRightSlashes p) "/v2" = true ∧ trimRightSlashes p ≠ "/v2" := by
  obtain ⟨qt, repo, tag⟩ := x
  obtain ⟨_, _, hp⟩ := parse_some_decomp h
  have hsep : ∃ mid : List Char, querySep qt = mid ++ 's' :: ['/'] := by
    cases qt
    · exact ⟨"/manifest".data, rfl⟩
    · exact ⟨"/blob".data, rfl⟩
  obtain ⟨mid, hmid⟩ := hsep
  have hdecomp :
      p.data = ("/v2/".data ++ repo.data ++ mid) ++ 's' :: ('/' :: tag.data) := by
    rw [hp, hmid]
    simp [List.append_assoc]
  have htrim : trimData p.data
      = ("/v2/".data ++ repo.data ++ mid) ++ 's' :: trimData ('/' :: tag.data) := by
    rw [hdecomp]
    exact trimData_append_cons _ _ _ (by decide)
  have hshape : trimData p.data
      = '/' :: 'v' :: '2' :: '/' ::
          ((repo.data ++ mid) ++ 's' :: trimData ('/' :: tag.data)) := by
    rw [htrim]
    simp [List.append_assoc]
  constructor
  · show isPrefixB "/v2".data (trimData p.data) = true
    rw [hshape]
    simp [isPrefixB]
  · intro heq
    have hdata : trimData p.data = "/v2".data := congrArg String.data heq
    rw [hshape] at hdata
    simp at hdata

/-! ## Registry configuration model -/

/-- redirectRegistry: one redirect candidate (its client collapsed to
its address; authenticator and timeout live in the attempt oracle). -/
structure redirectRegistry where
  address : String
  rewriteRepositories : String
deriving DecidableEq, Repr

/-- hijackedRegistry: an origin registry rule with its optional
compiled matching regex (modelled as a host predicate) and its ordered
redirects. -/
structure hijackedRegistry where
  address : String
  matchingRegex : Option (String → Bool)
  redirects : List redirectRegistry

/-- DockerRegistryHijacker: the compiled registry rules, in
configuration order. -/
structure DockerRegistryHijacker where
  registries : List hijackedRegistry

/-- The per-rule match condition from matchingRegistry:
registry.Address == host || registry.matchingRegex != nil &&
registry.matchingRegex.MatchString(host). -/
def registryMatches (registry : hijackedRegistry) (host : String) : Bool :=
  registry.address == host ||
    (match registry.matchingRegex with
     | some regex => regex host
     | none => false)

/-- matchingRegistry: the first configured rule matching the host. -/
def matchingRegistry (h : DockerRegistryHijacker) (host : String) :
    Option hijackedRegistry :=
  h.registries.find? (fun registry => registryMatches registry host)

/-! ## The hijacker's RequestHandler -/

/-- An HTTP response as returned by a redirect or origin registry. -/
structure Response where
  statusCode : Nat
  headers : List (String × String)
  body : String
deriving DecidableEq, Repr

/-- One write performed on the response writer: a status-code write or
a data write. -/
inductive WriteEvent where
  | header (code : Nat)
  | data (s : String)
deriving DecidableEq, Repr

/-- The (hijacked, response, error) triple a hijacker returns to the
pipeline, together with the writes it performed directly on the
response writer during the call. -/
structure HijackerOutcome where
  hijacked : Bool
  response : Option Response
  error : Option String
  directWrites : List WriteEvent
deriving DecidableEq, Repr

/-- A hijacker call result: its outcome plus the ordered trace of
(candidate address, effective repository) pairs it contacted. -/
structure RequestHandlerResult where
  outcome : HijackerOutcome
  contacted : List (String × String)
deriving DecidableEq, Repr

/-- An intercepted HTTP request (headers are snapshotted and forwarded
to candidates verbatim; they do not influence the control flow and are
carried only for completeness). -/
structure Request where
  method : String
  host : String
  path : String
  headers : List (String × String)
deriving DecidableEq, Repr

/-- The outcome of one tryRegistry call against a candidate, keyed by
the candidate's address and the effective repository: an error (from
authentication or from the GET) or a completed response. -/
def Attempt := String → String → Except String Response

/-- (false, nil, nil): let the request through, nothing written. -/
def passResult : RequestHandlerResult :=
  ⟨⟨false, none, none, []⟩, []⟩

/-- The loop over the redirects followed by the final origin try (with
an empty rewrite rule): try each candidate in order and stop at the
first attempt that completes without error; each attempt is recorded
in the contact trace. -/
def tryRedirects (attempt : Attempt) (originAddress repository tag : String) :
    List redirectRegistry → List (String × String) × Option Response × Option String
  | [] =>
    let newRepository := rewriteRepository "" repository tag
    match attempt originAddress newRepository with
    | .ok response => ([(originAddress, newRepository)], some response, none)
    | .error e => ([(originAddress, newRepository)], none, some e)
  | redirect :: rest =>
    let newRepository := rewriteRepository redirect.rewriteRepositories repository tag
    match attempt redirect.address newRepository with
    | .ok response => ([(redirect.address, newRepository)], some response, none)
    | .error _ =>
      let r := tryRedirects attempt originAddress repository tag rest
      ((redirect.address, newRepository) :: r.1, r.2.1, r.2.2)

/-- The redirect cascade of RequestHandler: the redirects in
configuration order, then the origin registry with no rewrite. -/
def cascade (attempt : Attempt) (registry : hijackedRegistry)
    (repository tag : String) :
    List (String × String) × Option Response × Option String :=
  tryRedirects attempt registry.address repository tag registry.redirects

/-- DockerRegistryHijacker.RequestHandler.  The response writer always
accepts the handshake write, so the handshake returns error none. -/
def DockerRegistryHijacker.RequestHandler (h : DockerRegistryHijacker)
    (attempt : Attempt) (req : Request) : RequestHandlerResult :=
  if req.method ≠ "GET" then passResult
  else
    let path := trimRightSlashes req.path
    if ¬ hasPrefix path "/v2" then passResult
    else
      match matchingRegistry h req.host with
      | none => passResult
      | some registry =>
        if path = "/v2" then
          ⟨⟨true, none, none, [.header 200, .data "\x7b\x7d"]⟩, []⟩
        else
          match parseRegistryURLPath req.path with
          | none => passResult
          | some (_, repository, tag) =>
            let r := cascade attempt registry repository tag
            ⟨⟨true, r.2.1, r.2.2, []⟩, r.1⟩

/-! ## Metric names and TransformMetricName -/

/-- The MitmProxyStatsdMetricName constants. -/
inductive MitmProxyStatsdMetricName where
  | hijackedRequestCounter
  | proxiedRequestCounter
  | hijackedRequestTransferPace
  | proxiedRequestTransferPace
  | hijackingErrorsCounter
deriving DecidableEq, Repr

/-- The underlying string of each metric-name constant. -/
def metricNameString : MitmProxyStatsdMetricName → String
  | .hijackedRequestCounter => "mitm.hijacked"
  | .proxiedRequestCounter => "mitm.proxied"
  | .hijackedRequestTransferPace => "mitm.hijacked.pace"
  | .proxiedRequestTransferPace => "mitm.proxied.pace"
  | .hijackingErrorsCounter => "mitm.hijacked.errors"

/-- DockerRegistryHijacker.TransformMetricName: suffix pace metrics
with the request host (dots replaced by underscores) and, when the
path is a registry query, with the query type string. -/
def DockerRegistryHijacker.TransformMetricName (_ : DockerRegistryHijacker)
    (name : MitmProxyStatsdMetricName) (req : Request) : String :=
  if name ≠ .hijackedRequestTransferPace ∧ name ≠ .proxiedRequestTransferPace then
    metricNameString name
  else
    let newName := metricNameString name ++ "." ++ replaceAll req.host "." "_"
    match parseRegistryURLPath req.path with
    | some (queryType, _, _) => newName ++ "." ++ queryTypeString queryType
    | none => newName

/-! ## The pipeline (MitmProxy.RequestHandler) -/

/-- Everything observable the pipeline does for one request, in
execution order. -/
inductive Event where
  | wrote (w : WriteEvent)
  | copiedHeaders (hs : List (String × String))
  | servedUpstream
  | closedBody
  | inc (m : MitmProxyStatsdMetricName) (name : String)
  | timing (m : MitmProxyStatsdMetricName) (name : String) (value : Nat)
deriving DecidableEq, Repr

/-- The pipeline's environment for one request: whether a statsd client
is configured, the hijacker's metric-name transformation (already
applied to this request), what the default upstream writes when
invoked, whether and where the body copy to the client is cut short,
and the elapsed time observed at exit. -/
structure PipelineEnv where
  statsdConfigured : Bool
  transform : MitmProxyStatsdMetricName → String
  upstreamWrites : List WriteEvent
  copyCap : Option Nat
  elapsed : Nat

/-- Is this character ASCII whitespace?  (The Go code trims Unicode
whitespace; every name produced here is ASCII.) -/
def isSpaceChar (c : Char) : Bool :=
  decide (c = ' ') || decide (c = '\t') || decide (c = '\n') || decide (c = '\r')

/-- strings.TrimSpace. -/
def trimSpace (s : String) : String :=
  ⟨((s.data.dropWhile isSpaceChar).reverse.dropWhile isSpaceChar).reverse⟩

/-- MitmProxy.metricName: empty when no statsd client is configured,
otherwise the trimmed transformed name (empty suppresses emission). -/
def metricNameFor (env : PipelineEnv) (m : MitmProxyStatsdMetricName) : String :=
  if env.statsdConfigured then trimSpace (env.transform m) else ""

/-- MitmProxy.incrementMetricCounter as an event list. -/
def emitInc (env : PipelineEnv) (m : MitmProxyStatsdMetricName) : List Event :=
  if metricNameFor env m ≠ "" then [.inc m (metricNameFor env m)] else []

/-- MitmProxy.reportMetricDuration as an event list. -/
def emitTiming (env : PipelineEnv) (m : MitmProxyStatsdMetricName) (v : Nat) :
    List Event :=
  if metricNameFor env m ≠ "" then [.timing m (metricNameFor env m) v] else []

/-- io.Copy of the response body through the wrapper: the whole body,
or the prefix the client accepted before the copy failed. -/
def copiedBody (env : PipelineEnv) (body : String) : String :=
  match env.copyCap with
  | none => body
  | some k => ⟨body.data.take k⟩

/-- Bytes counted by the writer wrapper for one write. -/
def writeEventSize : WriteEvent → Nat
  | .header _ => 0
  | .data s => s.length

/-- Bytes counted by the writer wrapper for one event. -/
def eventBytes : Event → Nat
  | .wrote w => writeEventSize w
  | _ => 0

/-- wrapper.written: total bytes written through the wrapper. -/
def writtenBytes (evs : List Event) : Nat := (evs.map eventBytes).sum

/-- The error-branch emission: if the hijacker returned a non-nil
error, count a hijacking error. -/
def errEvents (env : PipelineEnv) (out : HijackerOutcome) : List Event :=
  if out.error.isSome then emitInc env .hijackingErrorsCounter else []

/-- The effective hijacked flag: the hijacker's flag, forced to false
when it returned an error. -/
def effectiveHijacked (out : HijackerOutcome) : Bool :=
  out.error.isNone && out.hijacked

/-- The pipeline's main branch: stream the hijacker's response (copy
its headers, write its status, copy its body), do nothing when the
hijacker already replied directly, or serve upstream. -/
def branchEvents (env : PipelineEnv) (out : HijackerOutcome) : List Event :=
  match effectiveHijacked out, out.response with
  | true, some r =>
    [.copiedHeaders r.headers, .wrote (.header r.statusCode),
     .wrote (.data (copiedBody env r.body))]
  | true, none => []
  | false, _ => .servedUpstream :: env.upstreamWrites.map .wrote

/-- The deferred close of the hijacker's response body, registered
exactly when the response is streamed. -/
def closeEvents (out : HijackerOutcome) : List Event :=
  match effectiveHijacked out, out.response with
  | true, some _ => [Event.closedBody]
  | _, _ => []

/-- wrapper.written at exit: everything the hijacker wrote directly
plus everything the main branch wrote. -/
def pipelineWritten (env : PipelineEnv) (out : HijackerOutcome) : Nat :=
  writtenBytes (out.directWrites.map .wrote ++ branchEvents env out)

/-- The metric incremented by the deferred reporting block. -/
def counterEnumOf (out : HijackerOutcome) : MitmProxyStatsdMetricName :=
  if effectiveHijacked out then .hijackedRequestCounter else .proxiedRequestCounter

/-- The pace metric reported by the deferred reporting block. -/
def paceEnumOf (out : HijackerOutcome) : MitmProxyStatsdMetricName :=
  if effectiveHijacked out then .hijackedRequestTransferPace
  else .proxiedRequestTransferPace

/-- The deferred counter increment. -/
def counterEvents (env : PipelineEnv) (out : HijackerOutcome) : List Event :=
  emitInc env (counterEnumOf out)

/-- The deferred pace report: skipped below one kilobyte, otherwise
elapsed divided by the number of whole kilobytes written. -/
def paceEvents (env : PipelineEnv) (out : HijackerOutcome) : List Event :=
  if pipelineWritten env out < 1000 then []
  else
    emitTiming env (paceEnumOf out)
      (env.elapsed / (pipelineWritten env out / 1000))

/-- MitmProxy.RequestHandler: the full per-request pipeline, as the
ordered trace of its observable actions.  The hijacker call is
represented by its outcome (everything of the hijacker the pipeline
observes); the two deferred blocks run in last-in-first-out order, so
the body close precedes the metric reports. -/
def pipelineRequestHandler (env : PipelineEnv) (out : HijackerOutcome) :
    List Event :=
  out.directWrites.map .wrote ++ errEvents env out ++ branchEvents env out
    ++ closeEvents out ++ counterEvents env out ++ paceEvents env out

/-! ## Event counting helpers -/

/-- Is this event an Inc of metric m? -/
def isIncOf (m : MitmProxyStatsdMetricName) : Event → Bool
  | .inc m' _ => decide (m' = m)
  | _ => false

/-- Is this event a TimingDuration of metric m? -/
def isTimingOf (m : MitmProxyStatsdMetricName) : Event → Bool
  | .timing m' _ _ => decide (m' = m)
  | _ => false

/-- Is this event a response-body close? -/
def isClose : Event → Bool
  | .closedBody => true
  | _ => false

/-- Number of Inc emissions of metric m in a trace. -/
def countIncOf (m : MitmProxyStatsdMetricName) (evs : List Event) : Nat :=
  (evs.filter (isIncOf m)).length

/-- Number of TimingDuration emissions of metric m in a trace. -/
def countTimingOf (m : MitmProxyStatsdMetricName) (evs : List Event) : Nat :=
  (evs.filter (isTimingOf m)).length

/-- Number of response-body closes in a trace. -/
def countClose (evs : List Event) : Nat := (evs.filter isClose).length

/-! ## Event counting lemmas -/

theorem filter_map_wrote_eq_nil (p : Event → Bool) (hp : ∀ w, p (.wrote w) = false)
    (l : List WriteEvent) : (l.map Event.wrote).filter p = [] := by
  induction l with
  | nil => rfl
  | cons w l ih => simp [List.filter, hp, ih]

theorem countIncOf_append (m : MitmProxyStatsdMetricName) (l1 l2 : List Event) :
    countIncOf m (l1 ++ l2) = countIncOf m l1 + countIncOf m l2 := by
  simp [countIncOf, List.filter_append]

theorem countTimingOf_append (m : MitmProxyStatsdMetricName) (l1 l2 : List Event) :
    countTimingOf m (l1 ++ l2) = countTimingOf m l1 + countTimingOf m l2 := by
  simp [countTimingOf, List.filter_append]

theorem countClose_append (l1 l2 : List Event) :
    countClose (l1 ++ l2) = countClose l1 + countClose l2 := by
  simp [countClose, List.filter_append]

theorem writtenBytes_append (l1 l2 : List Event) :
    writtenBytes (l1 ++ l2) = writtenBytes l1 + writtenBytes l2 := by
  simp [writtenBytes]

theorem countIncOf_map_wrote (m : MitmProxyStatsdMetricName) (l : List WriteEvent) :
    countIncOf m (l.map .wrote) = 0 := by
  unfold countIncOf
  rw [filter_map_wrote_eq_nil (isIncOf m) (fun _ => rfl) l]
  rfl

theorem countTimingOf_map_wrote (m : MitmProxyStatsdMetricName) (l : List WriteEvent) :
    countTimingOf m (l.map .wrote) = 0 := by
  unfold countTimingOf
  rw [filter_map_wrote_eq_nil (isTimingOf m) (fun _ => rfl) l]
  rfl

theorem countClose_map_wrote (l : List WriteEvent) :
    countClose (l.map .wrote) = 0 := by
  unfold countClose
  rw [filter_map_wrote_eq_nil isClose (fun _ => rfl) l]
  rfl

theorem countIncOf_emitInc_self (env : PipelineEnv) (m : MitmProxyStatsdMetricName)
    (hm : metricNameFor env m ≠ "") : countIncOf m (emitInc env m) = 1 := by
  simp [emitInc, hm, countIncOf, List.filter, isIncOf]

theorem countIncOf_emitInc_ne (env : PipelineEnv) {m m' : MitmProxyStatsdMetricName}
    (hne : m' ≠ m) : countIncOf m (emitInc env m') = 0 := by
  by_cases h : metricNameFor env m' = "" <;>
    simp [emitInc, h, countIncOf, List.filter, isIncOf, hne]

theorem countTimingOf_emitInc (env : PipelineEnv) (m m' : MitmProxyStatsdMetricName) :
    countTimingOf m (emitInc env m') = 0 := by
  by_cases h : metricNameFor env m' = "" <;>
    simp [emitInc, h, countTimingOf, List.filter, isTimingOf]

theorem countClose_emitInc (env : PipelineEnv) (m' : MitmProxyStatsdMetricName) :
    countClose (emitInc env m') = 0 := by
  by_cases h : metricNameFor env m' = "" <;>
    simp [emitInc, h, countClose, List.filter, isClose]

theorem countIncOf_emitTiming (env : PipelineEnv) (m m' : MitmProxyStatsdMetricName)
    (v : Nat) : countIncOf m (emitTiming env m' v) = 0 := by
  by_cases h : metricNameFor env m' = "" <;>
    simp [emitTiming, h, countIncOf, List.filter, isIncOf]

theorem countTimingOf_emitTiming_self (env : PipelineEnv)
    (m : MitmProxyStatsdMetricName) (v : Nat) (hm : metricNameFor env m ≠ "") :
    countTimingOf m (emitTiming env m v) = 1 := by
  simp [emitTiming, hm, countTimingOf, List.filter, isTimingOf]

theorem countTimingOf_emitTiming_ne (env : PipelineEnv)
    {m m' : MitmProxyStatsdMetricName} (v : Nat) (hne : m' ≠ m) :
    countTimingOf m (emitTiming env m' v) = 0 := by
  by_cases h : metricNameFor env m' = "" <;>
    simp [emitTiming, h, countTimingOf, List.filter, isTimingOf, hne]

theorem countClose_emitTiming (env : PipelineEnv) (m' : MitmProxyStatsdMetricName)
    (v : Nat) : countClose (emitTiming env m' v) = 0 := by
  by_cases h : metricNameFor env m' = "" <;>
    simp [emitTiming, h, countClose, List.filter, isClose]

theorem writtenBytes_emitInc (env : PipelineEnv) (m : MitmProxyStatsdMetricName) :
    writtenBytes (emitInc env m) = 0 := by
  by_cases h : metricNameFor env m = "" <;> simp [emitInc, h, writtenBytes, eventBytes]

theorem writtenBytes_emitTiming (env : PipelineEnv) (m : MitmProxyStatsdMetricName)
    (v : Nat) : writtenBytes (emitTiming env m v) = 0 := by
  by_cases h : metricNameFor env m = "" <;> simp [emitTiming, h, writtenBytes, eventBytes]

theorem wrote_not_mem_emitInc (env : PipelineEnv) (m : MitmProxyStatsdMetricName)
    (w : WriteEvent) : Event.wrote w ∉ emitInc env m := by
  by_cases h : metricNameFor env m = "" <;> simp [emitInc, h]

theorem wrote_not_mem_emitTiming (env : PipelineEnv) (m : MitmProxyStatsdMetricName)
    (v : Nat) (w : WriteEvent) : Event.wrote w ∉ emitTiming env m v := by
  by_cases h : metricNameFor env m = "" <;> simp [emitTiming, h]

/-! ## Per-part counting lemmas -/

theorem countIncOf_errEvents (env : PipelineEnv) (out : HijackerOutcome)
    {m : MitmProxyStatsdMetricName} (hm : m ≠ .hijackingErrorsCounter) :
    countIncOf m (errEvents env out) = 0 := by
  unfold errEvents
  by_cases h : out.error.isSome = true
  · rw [if_pos h]
    exact countIncOf_emitInc_ne env (Ne.symm hm)
  · rw [if_neg h]
    rfl

theorem countIncOf_errEvents_some (env : PipelineEnv) (out : HijackerOutcome)
    {e : String} (he : out.error = some e)
    (hname : metricNameFor env .hijackingErrorsCounter ≠ "") :
    countIncOf .hijackingErrorsCounter (errEvents env out) = 1 := by
  unfold errEvents
  rw [he]
  simp [countIncOf_emitInc_self env _ hname]

theorem countTimingOf_errEvents (env : PipelineEnv) (out : HijackerOutcome)
    (m : MitmProxyStatsdMetricName) : countTimingOf m (errEvents env out) = 0 := by
  unfold errEvents
  by_cases h : out.error.isSome = true
  · rw [if_pos h]
    exact countTimingOf_emitInc env m _
  · rw [if_neg h]
    rfl

theorem countClose_errEvents (env : PipelineEnv) (out : HijackerOutcome) :
    countClose (errEvents env out) = 0 := by
  unfold errEvents
  by_cases h : out.error.isSome = true
  · rw [if_pos h]
    exact countClose_emitInc env _
  · rw [if_neg h]
    rfl

theorem writtenBytes_errEvents (env : PipelineEnv) (out : HijackerOutcome) :
    writtenBytes (errEvents env out) = 0 := by
  unfold errEvents
  by_cases h : out.error.isSome = true
  · rw [if_pos h]
    exact writtenBytes_emitInc env _
  · rw [if_neg h]
    rfl

theorem countIncOf_branchEvents (env : PipelineEnv) (out : HijackerOutcome)
    (m : MitmProxyStatsdMetricName) : countIncOf m (branchEvents env out) = 0 := by
  unfold branchEvents
  cases h1 : effectiveHijacked out <;> cases h2 : out.response <;>
    simp [countIncOf, List.filter, isIncOf,
      filter_map_wrote_eq_nil (isIncOf m) (fun _ => rfl)]

theorem countTimingOf_branchEvents (env : PipelineEnv) (out : HijackerOutcome)
    (m : MitmProxyStatsdMetricName) : countTimingOf m (branchEvents env out) = 0 := by
  unfold branchEvents
  cases h1 : effectiveHijacked out <;> cases h2 : out.response <;>
    simp [countTimingOf, List.filter, isTimingOf,
      filter_map_wrote_eq_nil (isTimingOf m) (fun _ => rfl)]

theorem countClose_branchEvents (env : PipelineEnv) (out : HijackerOutcome) :
    countClose (branchEvents env out) = 0 := by
  unfold branchEvents
  cases h1 : effectiveHijacked out <;> cases h2 : out.response <;>
    simp [countClose, List.filter, isClose,
      filter_map_wrote_eq_nil isClose (fun _ => rfl)]

theorem countIncOf_closeEvents (out : HijackerOutcome)
    (m : MitmProxyStatsdMetricName) : countIncOf m (closeEvents out) = 0 := by
  unfold closeEvents
  cases h1 : effectiveHijacked out <;> cases h2 : out.response <;>
    simp [countIncOf, List.filter, isIncOf]

theorem countTimingOf_closeEvents (out : HijackerOutcome)
    (m : MitmProxyStatsdMetricName) : countTimingOf m (closeEvents out) = 0 := by
  unfold closeEvents
  cases h1 : effectiveHijacked out <;> cases h2 : out.response <;>
    simp [countTimingOf, List.filter, isTimingOf]

theorem writtenBytes_closeEvents (out : HijackerOutcome) :
    writtenBytes (closeEvents out) = 0 := by
  unfold closeEvents
  cases h1 : effectiveHijacked out <;> cases h2 : out.response <;>
    simp [writtenBytes, eventBytes]

theorem counterEnumOf_ne_errors (out : HijackerOutcome) :
    counterEnumOf out ≠ .hijackingErrorsCounter := by
  unfold counterEnumOf
  cases h : effectiveHijacked out <;> simp

theorem countIncOf_counterEvents_errors (env : PipelineEnv) (out : HijackerOutcome) :
    countIncOf .hijackingErrorsCounter (counterEvents env out) = 0 :=
  countIncOf_emitInc_ne env (counterEnumOf_ne_errors out)

theorem countTimingOf_counterEvents (env : PipelineEnv) (out : HijackerOutcome)
    (m : MitmProxyStatsdMetricName) : countTimingOf m (counterEvents env out) = 0 :=
  countTimingOf_emitInc env m _

theorem countClose_counterEvents (env : PipelineEnv) (out : HijackerOutcome) :
    countClose (counterEvents env out) = 0 :=
  countClose_emitInc env _

theorem writtenBytes_counterEvents (env : PipelineEnv) (out : HijackerOutcome) :
    writtenBytes (counterEvents env out) = 0 :=
  writtenBytes_emitInc env _

theorem countIncOf_paceEvents (env : PipelineEnv) (out : HijackerOutcome)
    (m : MitmProxyStatsdMetricName) : countIncOf m (paceEvents env out) = 0 := by
  unfold paceEvents
  by_cases h : pipelineWritten env out < 1000
  · rw [if_pos h]
    rfl
  · rw [if_neg h]
    exact countIncOf_emitTiming env m _ _

theorem countClose_paceEvents (env : PipelineEnv) (out : HijackerOutcome) :
    countClose (paceEvents env out) = 0 := by
  unfold paceEvents
  by_cases h : pipelineWritten env out < 1000
  · rw [if_pos h]
    rfl
  · rw [if_neg h]
    exact countClose_emitTiming env _ _

theorem writtenBytes_paceEvents (env : PipelineEnv) (out : HijackerOutcome) :
    writtenBytes (paceEvents env out) = 0 := by
  unfold paceEvents
  by_cases h : pipelineWritten env out < 1000
  · rw [if_pos h]
    rfl
  · rw [if_neg h]
    exact writtenBytes_emitTiming env _ _

theorem writtenBytes_pipeline (env : PipelineEnv) (out : HijackerOutcome) :
    writtenBytes (pipelineRequestHandler env out) = pipelineWritten env out := by
  simp [pipelineRequestHandler, writtenBytes_append, writtenBytes_errEvents,
    writtenBytes_closeEvents, writtenBytes_counterEvents, writtenBytes_paceEvents,
    pipelineWritten]

/-! ## MitmProxy start/stop state -/

/-- The only MitmProxy state the start/Stop guards consult: whether
p.server has been set. -/
structure MitmProxy where
  server : Option Unit
deriving DecidableEq, Repr

/-- Observable listener actions of start. -/
inductive StartEvent where
  | boundListener
deriving DecidableEq, Repr

/-- MitmProxy.start: refuse if already started; then load the CA
(environment outcome caOk) and only then bind the listener and record
the server. -/
def MitmProxy.start (p : MitmProxy) (caOk : Bool) :
    Except String MitmProxy × List StartEvent :=
  if p.server.isSome then (.error "proxy already started", [])
  else if caOk then (.ok ⟨some ()⟩, [.boundListener])
  else (.error "unable to load TLSInfo", [])

/-- MitmProxy.Stop: refuse if never started, otherwise shut down. -/
def MitmProxy.Stop (p : MitmProxy) : Except String Unit :=
  if p.server.isNone then .error "Proxy not started yet" else .ok ()

/-! ## Claim C8: the repository rewrite -/

theorem scan_pct_t_append (t : List Char) :
    ∀ r : List Char, hasSubL ['%', 't'] r = false →
      replaceAllScan ['%', 't'] t (r ++ ':' :: '%' :: 't' :: []) 0 = r ++ ':' :: t := by
  intro r
  induction r with
  | nil =>
    intro _
    have e1 : isPrefixB ['%', 't'] (':' :: '%' :: 't' :: []) = false := by decide
    have e2 : isPrefixB ['%', 't'] ('%' :: 't' :: []) = true := by decide
    show replaceAllScan ['%', 't'] t (':' :: '%' :: 't' :: []) 0 = ':' :: t
    simp [replaceAllScan, e1, e2]
  | cons c r' ih =>
    intro hsub
    have hsub' : isPrefixB ['%', 't'] (c :: r') = false ∧ hasSubL ['%', 't'] r' = false := by
      simpa [hasSubL] using hsub
    have hcond : isPrefixB ['%', 't'] (c :: (r' ++ ':' :: '%' :: 't' :: [])) = false := by
      cases r' with
      | nil => simp [isPrefixB]
      | cons d r'' =>
        have h1 := hsub'.1
        simp only [isPrefixB, Bool.and_eq_false_iff] at h1 ⊢
        simpa using h1
    rw [List.cons_append, replaceAllScan, hcond]
    simp only [Bool.false_eq_true, if_false]
    rw [ih hsub'.2]
    simp

/-- Claim C8 (counterexample): for the template percent-r colon
percent-t the rewrite is not always r followed by the colon and the
tag: the tag placeholder substitution also rewrites placeholder text
introduced by the repository. -/
theorem C8_rewrite_counterexample :
    rewriteRepository "%r:%t" "%t" "18" = "18:18" ∧
    rewriteRepository "%r:%t" "%t" "18" ≠ "%t" ++ ":" ++ "18" := by
  constructor
  · decide
  · decide

/-- Claim C8 (amended): the rewrite is the identity on the repository
when the template is empty, and for the template percent-r colon
percent-t it returns repository, colon, tag, provided the repository
does not itself contain the percent-t placeholder (the substitutions
are applied sequentially: first percent-r, then percent-t). -/
theorem C8_rewrite_template (r t : String) :
    rewriteRepository "" r t = r ∧
    (hasSubL ['%', 't'] r.data = false →
      rewriteRepository "%r:%t" r t = r ++ ":" ++ t) := by
  refine ⟨rfl, fun hsub => ?_⟩
  obtain ⟨rl⟩ := r
  obtain ⟨tl⟩ := t
  show (⟨replaceAllScan ['%', 't'] tl (rl ++ ':' :: '%' :: 't' :: []) 0⟩ : String)
      = ⟨rl⟩ ++ ":" ++ ⟨tl⟩
  rw [scan_pct_t_append tl rl hsub]
  show (⟨rl ++ ':' :: tl⟩ : String) = ⟨(rl ++ ':' :: []) ++ tl⟩
  exact congrArg String.mk (by simp)

theorem C8_rewrite_template_witness :
    hasSubL ['%', 't'] "ubuntu".data = false ∧
    rewriteRepository "%r:%t" "ubuntu" "18" = "ubuntu" ++ ":" ++ "18" :=
  ⟨by decide, (C8_rewrite_template "ubuntu" "18").2 (by decide)⟩

/-! ## Claim C7: the /v2 handshake short-circuit -/

/-- Claim C7: for a GET request whose host matches a configured rule
and whose path, after trimming trailing slashes, is /v2, the hijacker
writes status 200 and body left-brace right-brace, returns
(true, nil, nil), and contacts no candidate. -/
theorem C7_v2_handshake (h : DockerRegistryHijacker) (attempt : Attempt)
    (req : Request) (registry : hijackedRegistry)
    (hm : req.method = "GET")
    (hmatch : matchingRegistry h req.host = some registry)
    (hpath : trimRightSlashes req.path = "/v2") :
    DockerRegistryHijacker.RequestHandler h attempt req =
      ⟨⟨true, none, none, [.header 200, .data "\x7b\x7d"]⟩, []⟩ := by
  have hpb : hasPrefix "/v2" "/v2" = true := by decide
  simp [DockerRegistryHijacker.RequestHandler, hm, hpath, hmatch, hpb]

theorem C7_v2_handshake_witness :
    (⟨"GET", "index.docker.io", "/v2/", []⟩ : Request).method = "GET" ∧
    matchingRegistry ⟨[⟨"index.docker.io", none, [⟨"r1", ""⟩]⟩]⟩ "index.docker.io"
      = some ⟨"index.docker.io", none, [⟨"r1", ""⟩]⟩ ∧
    trimRightSlashes "/v2/" = "/v2" ∧
    DockerRegistryHijacker.RequestHandler ⟨[⟨"index.docker.io", none, [⟨"r1", ""⟩]⟩]⟩
        (fun _ _ => .error "unreachable") ⟨"GET", "index.docker.io", "/v2/", []⟩ =
      ⟨⟨true, none, none, [.header 200, .data "\x7b\x7d"]⟩, []⟩ :=
  ⟨rfl, rfl, by decide,
    C7_v2_handshake _ _ _ ⟨"index.docker.io", none, [⟨"r1", ""⟩]⟩ rfl rfl (by decide)⟩

/-! ## Claim C4: regex versus address matching -/

/-- A rule whose configured regex rejects every host, with an address
equal to a host of interest. -/
def C4registry : hijackedRegistry :=
  ⟨"example.com", some (fun _ => false), [⟨"r1", ""⟩]⟩

/-- Claim C4 (counterexample): with a matching regex configured, the
routing decision is not made by the regex alone — a rule whose regex
rejects the host still matches when the host equals the rule's
address. -/
theorem C4_regex_counterexample :
    ¬ (registryMatches C4registry "example.com" = true ↔
        (fun (_ : String) => false) "example.com" = true) := by
  decide

/-- Claim C4 (amended): when a matching regex is configured, the rule
matches a host if and only if the host equals the rule's address or
the regex matches it (equality with the address is still consulted;
the regex extends rather than supersedes it). -/
theorem C4_regex_or_address (registry : hijackedRegistry) (rx : String → Bool)
    (host : String) (hrx : registry.matchingRegex = some rx) :
    registryMatches registry host = (registry.address == host || rx host) := by
  simp [registryMatches, hrx]

theorem C4_regex_or_address_witness :
    C4registry.matchingRegex = some (fun _ => false) ∧
    registryMatches C4registry "example.com"
      = (C4registry.address == "example.com" || (fun (_ : String) => false) "example.com") :=
  ⟨rfl, C4_regex_or_address C4registry (fun _ => false) "example.com" rfl⟩

/-! ## Claim C6: metric-name transformation -/

/-- A registry-query request against host a.b, used to exhibit the
pace-metric suffix. -/
def C6request : Request := ⟨"GET", "a.b", "/v2/r/manifests/t", []⟩

/-- Claim C6 (counterexample): the pace-metric suffix appended for a
registry query is the query-type string manifest (singular), not
manifests as claimed. -/
theorem C6_transform_counterexample :
    DockerRegistryHijacker.TransformMetricName ⟨[]⟩ .hijackedRequestTransferPace C6request
      = "mitm.hijacked.pace.a_b.manifest" ∧
    DockerRegistryHijacker.TransformMetricName ⟨[]⟩ .hijackedRequestTransferPace C6request
      ≠ "mitm.hijacked.pace.a_b.manifests" := by
  constructor
  · decide
  · decide

/-- Claim C6 (amended): TransformMetricName leaves every non-pace
metric name unchanged, and rewrites exactly the two pace metric names
to base dot host-with-dots-replaced-by-underscores, further suffixed
by dot manifest or dot blob (singular, the query-type string) exactly
when the request path parses as a registry query. -/
theorem C6_transform_metric_name (h : DockerRegistryHijacker)
    (name : MitmProxyStatsdMetricName) (req : Request) :
    (name ≠ .hijackedRequestTransferPace → name ≠ .proxiedRequestTransferPace →
      DockerRegistryHijacker.TransformMetricName h name req = metricNameString name) ∧
    ((name = .hijackedRequestTransferPace ∨ name = .proxiedRequestTransferPace) →
      (∀ qt repo tag, parseRegistryURLPath req.path = some (qt, repo, tag) →
        DockerRegistryHijacker.TransformMetricName h name req
          = metricNameString name ++ "." ++ replaceAll req.host "." "_"
              ++ "." ++ queryTypeString qt) ∧
      (parseRegistryURLPath req.path = none →
        DockerRegistryHijacker.TransformMetricName h name req
          = metricNameString name ++ "." ++ replaceAll req.host "." "_")) := by
  constructor
  · intro h1 h2
    simp [DockerRegistryHijacker.TransformMetricName, h1, h2]
  · intro hname
    have hcond : ¬ (name ≠ .hijackedRequestTransferPace ∧
        name ≠ .proxiedRequestTransferPace) := by
      rcases hname with h' | h' <;> simp [h']
    constructor
    · intro qt repo tag hp
      simp [DockerRegistryHijacker.TransformMetricName, hcond, hp]
    · intro hp
      simp [DockerRegistryHijacker.TransformMetricName, hcond, hp]

theorem C6_transform_metric_name_witness :
    ((.hijackedRequestTransferPace : MitmProxyStatsdMetricName)
        = .hijackedRequestTransferPace ∨
      (.hijackedRequestTransferPace : MitmProxyStatsdMetricName)
        = .proxiedRequestTransferPace) ∧
    parseRegistryURLPath C6request.path = some (.manifest, "r", "t") ∧
    DockerRegistryHijacker.TransformMetricName ⟨[]⟩ .hijackedRequestTransferPace C6request
      = metricNameString .hijackedRequestTransferPace ++ "."
          ++ replaceAll C6request.host "." "_" ++ "." ++ queryTypeString .manifest :=
  ⟨Or.inl rfl, by decide,
    ((C6_transform_metric_name ⟨[]⟩ .hijackedRequestTransferPace C6request).2
      (Or.inl rfl)).1 .manifest "r" "t" (by decide)⟩

/-! ## Claim C10: start and Stop guards -/

/-- Claim C10: starting an already-started proxy returns an error
without binding a listener; Stop before any start returns an error; a
single successful start followed by Stop succeeds. -/
theorem C10_start_stop (p : MitmProxy) (caOk : Bool) :
    (p.server.isSome = true → p.start caOk = (.error "proxy already started", [])) ∧
    MitmProxy.Stop ⟨none⟩ = .error "Proxy not started yet" ∧
    (p.server = none →
      p.start true = (.ok ⟨some ()⟩, [.boundListener]) ∧
      MitmProxy.Stop ⟨some ()⟩ = .ok ()) := by
  refine ⟨?_, rfl, ?_⟩
  · intro hs
    simp [MitmProxy.start, hs]
  · intro hn
    exact ⟨by simp [MitmProxy.start, hn], rfl⟩

theorem C10_start_stop_witness :
    ((⟨some ()⟩ : MitmProxy).server.isSome = true ∧
      (⟨some ()⟩ : MitmProxy).start true = (.error "proxy already started", [])) ∧
    ((⟨none⟩ : MitmProxy).server = none ∧
      (⟨none⟩ : MitmProxy).start true = (.ok ⟨some ()⟩, [.boundListener]) ∧
      MitmProxy.Stop ⟨some ()⟩ = .ok ()) :=
  ⟨⟨rfl, (C10_start_stop ⟨some ()⟩ true).1 rfl⟩,
    ⟨rfl, (C10_start_stop ⟨none⟩ true).2.2 rfl⟩⟩

/-! ## Claim C1: ordering of the redirect cascade -/

/-- A successfully routed registry query runs the cascade: shared
scaffolding for the cascade claims. -/
theorem requestHandler_query (h : DockerRegistryHijacker) (attempt : Attempt)
    (req : Request) (registry : hijackedRegistry) (qt : registryQueryType)
    (repo tag : String)
    (hm : req.method = "GET")
    (hmatch : matchingRegistry h req.host = some registry)
    (hp : parseRegistryURLPath req.path = some (qt, repo, tag)) :
    DockerRegistryHijacker.RequestHandler h attempt req =
      ⟨⟨true, (cascade attempt registry repo tag).2.1,
        (cascade attempt registry repo tag).2.2, []⟩,
       (cascade attempt registry repo tag).1⟩ := by
  obtain ⟨hpre, hne⟩ := parse_some_trim_facts hp
  simp [DockerRegistryHijacker.RequestHandler, hm, hmatch, hp, hpre, hne]

/-- Claim C1: for a matching GET registry query against a rule with
redirects A, B, C, the hijacker contacts A first, B only if A's
attempt fails, C only if B's fails, and the origin only if all three
fail; at the first candidate whose attempt completes without error it
stops and returns (true, that candidate's response, nil). -/
theorem C1_redirect_cascade (h : DockerRegistryHijacker) (attempt : Attempt)
    (req : Request) (registry : hijackedRegistry) (A B C : redirectRegistry)
    (qt : registryQueryType) (repo tag : String)
    (hm : req.method = "GET")
    (hmatch : matchingRegistry h req.host = some registry)
    (hred : registry.redirects = [A, B, C])
    (hp : parseRegistryURLPath req.path = some (qt, repo, tag)) :
    (∀ rA, attempt A.address (rewriteRepository A.rewriteRepositories repo tag) = .ok rA →
      DockerRegistryHijacker.RequestHandler h attempt req =
        ⟨⟨true, some rA, none, []⟩,
          [(A.address, rewriteRepository A.rewriteRepositories repo tag)]⟩) ∧
    (∀ eA rB,
      attempt A.address (rewriteRepository A.rewriteRepositories repo tag) = .error eA →
      attempt B.address (rewriteRepository B.rewriteRepositories repo tag) = .ok rB →
      DockerRegistryHijacker.RequestHandler h attempt req =
        ⟨⟨true, some rB, none, []⟩,
          [(A.address, rewriteRepository A.rewriteRepositories repo tag),
           (B.address, rewriteRepository B.rewriteRepositories repo tag)]⟩) ∧
    (∀ eA eB rC,
      attempt A.address (rewriteRepository A.rewriteRepositories repo tag) = .error eA →
      attempt B.address (rewriteRepository B.rewriteRepositories repo tag) = .error eB →
      attempt C.address (rewriteRepository C.rewriteRepositories repo tag) = .ok rC →
      DockerRegistryHijacker.RequestHandler h attempt req =
        ⟨⟨true, some rC, none, []⟩,
          [(A.address, rewriteRepository A.rewriteRepositories repo tag),
           (B.address, rewriteRepository B.rewriteRepositories repo tag),
           (C.address, rewriteRepository C.rewriteRepositories repo tag)]⟩) ∧
    (∀ eA eB eC,
      attempt A.address (rewriteRepository A.rewriteRepositories repo tag) = .error eA →
      attempt B.address (rewriteRepository B.rewriteRepositories repo tag) = .error eB →
      attempt C.address (rewriteRepository C.rewriteRepositories repo tag) = .error eC →
      (∀ rO, attempt registry.address repo = .ok rO →
        DockerRegistryHijacker.RequestHandler h attempt req =
          ⟨⟨true, some rO, none, []⟩,
            [(A.address, rewriteRepository A.rewriteRepositories repo tag),
             (B.address, rewriteRepository B.rewriteRepositories repo tag),
             (C.address, rewriteRepository C.rewriteRepositories repo tag),
             (registry.address, repo)]⟩) ∧
      (∀ eO, attempt registry.address repo = .error eO →
        DockerRegistryHijacker.RequestHandler h attempt req =
          ⟨⟨true, none, some eO, []⟩,
            [(A.address, rewriteRepository A.rewriteRepositories repo tag),
             (B.address, rewriteRepository B.rewriteRepositories repo tag),
             (C.address, rewriteRepository C.rewriteRepositories repo tag),
             (registry.address, repo)]⟩)) := by
  have hh := requestHandler_query h attempt req registry qt repo tag hm hmatch hp
  refine ⟨?_, ?_, ?_, ?_⟩
  · intro rA hA
    rw [hh]
    simp [cascade, hred, tryRedirects, hA]
  · intro eA rB hA hB
    rw [hh]
    simp [cascade, hred, tryRedirects, hA, hB]
  · intro eA eB rC hA hB hC
    rw [hh]
    simp [cascade, hred, tryRedirects, hA, hB, hC]
  · intro eA eB eC hA hB hC
    constructor
    · intro rO hO
      rw [hh]
      simp [cascade, hred, tryRedirects, hA, hB, hC, rewriteRepository_empty, hO]
    · intro eO hO
      rw [hh]
      simp [cascade, hred, tryRedirects, hA, hB, hC, rewriteRepository_empty, hO]

/-- A hijacker with one rule for origin.io and redirects r1, r2, r3. -/
def C1hijacker : DockerRegistryHijacker :=
  ⟨[⟨"origin.io", none, [⟨"r1", ""⟩, ⟨"r2", ""⟩, ⟨"r3", ""⟩]⟩]⟩

/-- A registry query for ubuntu, tag latest, against origin.io. -/
def C1request : Request := ⟨"GET", "origin.io", "/v2/ubuntu/manifests/latest", []⟩

/-- An attempt oracle where only candidate r2 succeeds. -/
def C1attempt : Attempt := fun addr _ =>
  if addr = "r2" then .ok ⟨200, [], "manifest-bytes"⟩ else .error "unreachable"

theorem C1_redirect_cascade_witness :
    C1request.method = "GET" ∧
    matchingRegistry C1hijacker C1request.host
      = some ⟨"origin.io", none, [⟨"r1", ""⟩, ⟨"r2", ""⟩, ⟨"r3", ""⟩]⟩ ∧
    parseRegistryURLPath C1request.path = some (.manifest, "ubuntu", "latest") ∧
    C1attempt "r1" (rewriteRepository "" "ubuntu" "latest") = .error "unreachable" ∧
    C1attempt "r2" (rewriteRepository "" "ubuntu" "latest")
      = .ok ⟨200, [], "manifest-bytes"⟩ ∧
    DockerRegistryHijacker.RequestHandler C1hijacker C1attempt C1request =
      ⟨⟨true, some ⟨200, [], "manifest-bytes"⟩, none, []⟩,
        [("r1", "ubuntu"), ("r2", "ubuntu")]⟩ :=
  ⟨rfl, rfl, by decide, rfl, rfl,
    (C1_redirect_cascade C1hijacker C1attempt C1request
        ⟨"origin.io", none, [⟨"r1", ""⟩, ⟨"r2", ""⟩, ⟨"r3", ""⟩]⟩
        ⟨"r1", ""⟩ ⟨"r2", ""⟩ ⟨"r3", ""⟩ .manifest "ubuntu" "latest"
        rfl rfl rfl (by decide)).2.1
      "unreachable" ⟨200, [], "manifest-bytes"⟩ rfl rfl⟩

/-! ## Claim C2: total failure and the pipeline fallback -/

theorem tryRedirects_all_fail (attempt : Attempt) (origin repo tag e0 : String)
    (h0 : attempt origin repo = .error e0) :
    ∀ reds : List redirectRegistry,
      (∀ red ∈ reds, ∃ e,
        attempt red.address (rewriteRepository red.rewriteRepositories repo tag)
          = Except.error e) →
      tryRedirects attempt origin repo tag reds
        = (reds.map
              (fun red => (red.address, rewriteRepository red.rewriteRepositories repo tag))
            ++ [(origin, repo)], none, some e0) := by
  intro reds
  induction reds with
  | nil =>
    intro _
    simp [tryRedirects, rewriteRepository_empty, h0]
  | cons red rest ih =>
    intro hall
    obtain ⟨e, he⟩ := hall red (by simp)
    have hrest := ih (fun r hr => hall r (by simp [hr]))
    simp [tryRedirects, he, hrest]

/-- Claim C2: when every redirect attempt and the origin attempt fail,
the hijacker returns (true, nil, err) with the origin's error, having
tried the origin with no repository rewrite; and on a non-nil hijacker
error the pipeline emits the hijacking-errors counter exactly once,
serves the request upstream, and increments the proxied counter (and
not the hijacked one). -/
theorem C2_all_fail_fallback :
    (∀ (h : DockerRegistryHijacker) (attempt : Attempt) (req : Request)
        (registry : hijackedRegistry) (qt : registryQueryType) (repo tag e0 : String),
      req.method = "GET" →
      matchingRegistry h req.host = some registry →
      parseRegistryURLPath req.path = some (qt, repo, tag) →
      (∀ red ∈ registry.redirects, ∃ e,
        attempt red.address (rewriteRepository red.rewriteRepositories repo tag)
          = Except.error e) →
      attempt registry.address repo = .error e0 →
      DockerRegistryHijacker.RequestHandler h attempt req =
        ⟨⟨true, none, some e0, []⟩,
          registry.redirects.map
              (fun red => (red.address, rewriteRepository red.rewriteRepositories repo tag))
            ++ [(registry.address, repo)]⟩) ∧
    (∀ (env : PipelineEnv) (out : HijackerOutcome) (e : String),
      out.hijacked = true → out.response = none → out.error = some e →
      metricNameFor env .hijackingErrorsCounter ≠ "" →
      metricNameFor env .proxiedRequestCounter ≠ "" →
      countIncOf .hijackingErrorsCounter (pipelineRequestHandler env out) = 1 ∧
      Event.servedUpstream ∈ pipelineRequestHandler env out ∧
      countIncOf .proxiedRequestCounter (pipelineRequestHandler env out) = 1 ∧
      countIncOf .hijackedRequestCounter (pipelineRequestHandler env out) = 0) := by
  constructor
  · intro h attempt req registry qt repo tag e0 hm hmatch hp hall h0
    have hh := requestHandler_query h attempt req registry qt repo tag hm hmatch hp
    rw [hh]
    rw [show cascade attempt registry repo tag
        = (registry.redirects.map
              (fun red => (red.address, rewriteRepository red.rewriteRepositories repo tag))
            ++ [(registry.address, repo)], none, some e0) from
      tryRedirects_all_fail attempt registry.address repo tag e0 h0 registry.redirects hall]
  · intro env out e hh hr he hname hpr
    have heff : effectiveHijacked out = false := by
      simp [effectiveHijacked, he]
    have henum : counterEnumOf out = .proxiedRequestCounter := by
      simp [counterEnumOf, heff]
    have hbr : branchEvents env out = .servedUpstream :: env.upstreamWrites.map .wrote := by
      simp [branchEvents, heff]
    refine ⟨?_, ?_, ?_, ?_⟩
    · simp only [pipelineRequestHandler, countIncOf_append]
      rw [countIncOf_map_wrote, countIncOf_errEvents_some env out he hname,
        countIncOf_branchEvents, countIncOf_closeEvents,
        countIncOf_counterEvents_errors, countIncOf_paceEvents]
    · simp [pipelineRequestHandler, hbr]
    · simp only [pipelineRequestHandler, countIncOf_append]
      rw [countIncOf_map_wrote, countIncOf_errEvents env out (by simp),
        countIncOf_branchEvents, countIncOf_closeEvents, countIncOf_paceEvents]
      have : countIncOf .proxiedRequestCounter (counterEvents env out) = 1 := by
        unfold counterEvents
        rw [henum]
        exact countIncOf_emitInc_self env _ hpr
      rw [this]
    · simp only [pipelineRequestHandler, countIncOf_append]
      rw [countIncOf_map_wrote, countIncOf_errEvents env out (by simp),
        countIncOf_branchEvents, countIncOf_closeEvents, countIncOf_paceEvents]
      have : countIncOf .hijackedRequestCounter (counterEvents env out) = 0 := by
        unfold counterEvents
        rw [henum]
        exact countIncOf_emitInc_ne env (by simp)
      rw [this]

/-- A pipeline environment with statsd configured and identity
transformation, serving one upstream write. -/
def C2env : PipelineEnv :=
  ⟨true, metricNameString, [.data "upstream-body"], none, 7⟩

/-- The outcome of a hijack whose every candidate failed. -/
def C2out : HijackerOutcome := ⟨true, none, some "all candidates failed", []⟩

theorem C2_all_fail_fallback_witness :
    (C1attempt "origin.io" "ubuntu" = .error "unreachable" ∧
      DockerRegistryHijacker.RequestHandler
          ⟨[⟨"origin.io", none, [⟨"r4", ""⟩]⟩]⟩
          C1attempt ⟨"GET", "origin.io", "/v2/ubuntu/blobs/18", []⟩ =
        ⟨⟨true, none, some "unreachable", []⟩,
          [("r4", "ubuntu"), ("origin.io", "ubuntu")]⟩) ∧
    (countIncOf .hijackingErrorsCounter (pipelineRequestHandler C2env C2out) = 1 ∧
      Event.servedUpstream ∈ pipelineRequestHandler C2env C2out ∧
      countIncOf .proxiedRequestCounter (pipelineRequestHandler C2env C2out) = 1 ∧
      countIncOf .hijackedRequestCounter (pipelineRequestHandler C2env C2out) = 0) :=
  ⟨⟨rfl,
      C2_all_fail_fallback.1 ⟨[⟨"origin.io", none, [⟨"r4", ""⟩]⟩]⟩ C1attempt
        ⟨"GET", "origin.io", "/v2/ubuntu/blobs/18", []⟩
        ⟨"origin.io", none, [⟨"r4", ""⟩]⟩ .blob "ubuntu" "18" "unreachable"
        rfl rfl (by decide)
        (by
          intro red hred
          simp only [List.mem_singleton] at hred
          exact ⟨"unreachable", by rw [hred]; rfl⟩)
        rfl⟩,
    C2_all_fail_fallback.2 C2env C2out "all candidates failed"
      rfl rfl rfl (by decide) (by decide)⟩

/-! ## Claim C3: counter and pace emission invariants -/

/-- Claim C3: for every request, exactly one of the hijacked and
proxied counters is emitted (the one matching the effective branch); a
pace timing is emitted if and only if at least 1000 bytes were
written, in which case exactly one pace timing is emitted — the one
matching the counter — with value elapsed divided by
(bytesWritten / 1000), emitted after the counter.  The statsd client
must be configured and the transformation must not suppress these four
names (the Docker hijacker never does). -/
theorem C3_counters_and_pace (env : PipelineEnv) (out : HijackerOutcome)
    (hc : metricNameFor env .hijackedRequestCounter ≠ "")
    (hpr : metricNameFor env .proxiedRequestCounter ≠ "")
    (hpc : metricNameFor env .hijackedRequestTransferPace ≠ "")
    (hpp : metricNameFor env .proxiedRequestTransferPace ≠ "") :
    countIncOf .hijackedRequestCounter (pipelineRequestHandler env out)
        + countIncOf .proxiedRequestCounter (pipelineRequestHandler env out) = 1 ∧
    countIncOf (counterEnumOf out) (pipelineRequestHandler env out) = 1 ∧
    (counterEnumOf out = .hijackedRequestCounter ↔
      paceEnumOf out = .hijackedRequestTransferPace) ∧
    countTimingOf .hijackedRequestTransferPace (pipelineRequestHandler env out)
        + countTimingOf .proxiedRequestTransferPace (pipelineRequestHandler env out)
      = (if 1000 ≤ writtenBytes (pipelineRequestHandler env out) then 1 else 0) ∧
    (1000 ≤ writtenBytes (pipelineRequestHandler env out) →
      ∃ pre s1 s2,
        pipelineRequestHandler env out
          = pre ++ [.inc (counterEnumOf out) s1,
              .timing (paceEnumOf out) s2
                (env.elapsed / (writtenBytes (pipelineRequestHandler env out) / 1000))]) := by
  have hWpipe := writtenBytes_pipeline env out
  have hcName : metricNameFor env (counterEnumOf out) ≠ "" := by
    unfold counterEnumOf
    cases h : effectiveHijacked out <;> simp [hc, hpr]
  have hpName : metricNameFor env (paceEnumOf out) ≠ "" := by
    unfold paceEnumOf
    cases h : effectiveHijacked out <;> simp [hpc, hpp]
  have hIncRed : ∀ m : MitmProxyStatsdMetricName, m ≠ .hijackingErrorsCounter →
      countIncOf m (pipelineRequestHandler env out)
        = countIncOf m (counterEvents env out) := by
    intro m hm
    simp only [pipelineRequestHandler, countIncOf_append]
    rw [countIncOf_map_wrote, countIncOf_errEvents env out hm,
      countIncOf_branchEvents, countIncOf_closeEvents, countIncOf_paceEvents]
    omega
  have hTimRed : ∀ m : MitmProxyStatsdMetricName,
      countTimingOf m (pipelineRequestHandler env out)
        = countTimingOf m (paceEvents env out) := by
    intro m
    simp only [pipelineRequestHandler, countTimingOf_append]
    rw [countTimingOf_map_wrote, countTimingOf_errEvents, countTimingOf_branchEvents,
      countTimingOf_closeEvents, countTimingOf_counterEvents]
    omega
  refine ⟨?_, ?_, ?_, ?_, ?_⟩
  · rw [hIncRed _ (by simp), hIncRed _ (by simp)]
    unfold counterEvents
    cases h : effectiveHijacked out
    · have h1 : counterEnumOf out = .proxiedRequestCounter := by
        simp [counterEnumOf, h]
      rw [h1, countIncOf_emitInc_ne env (by simp), countIncOf_emitInc_self env _ hpr]
    · have h1 : counterEnumOf out = .hijackedRequestCounter := by
        simp [counterEnumOf, h]
      rw [h1, countIncOf_emitInc_self env _ hc, countIncOf_emitInc_ne env (by simp)]
  · rw [hIncRed _ (counterEnumOf_ne_errors out)]
    unfold counterEvents
    exact countIncOf_emitInc_self env _ hcName
  · unfold counterEnumOf paceEnumOf
    cases h : effectiveHijacked out <;> simp
  · rw [hTimRed, hTimRed, hWpipe]
    unfold paceEvents
    by_cases hlt : pipelineWritten env out < 1000
    · rw [if_pos hlt]
      have hnot : ¬ (1000 ≤ pipelineWritten env out) := by omega
      simp [hnot, countTimingOf]
    · rw [if_neg hlt]
      have hge : 1000 ≤ pipelineWritten env out := by omega
      rw [if_pos hge]
      cases h : effectiveHijacked out
      · have h1 : paceEnumOf out = .proxiedRequestTransferPace := by
          simp [paceEnumOf, h]
        rw [h1, countTimingOf_emitTiming_ne env _ (by simp),
          countTimingOf_emitTiming_self env _ _ hpp]
      · have h1 : paceEnumOf out = .hijackedRequestTransferPace := by
          simp [paceEnumOf, h]
        rw [h1, countTimingOf_emitTiming_self env _ _ hpc,
          countTimingOf_emitTiming_ne env _ (by simp)]
  · intro hge
    rw [hWpipe] at hge
    have hcEv : counterEvents env out
        = [.inc (counterEnumOf out) (metricNameFor env (counterEnumOf out))] := by
      unfold counterEvents emitInc
      rw [if_pos hcName]
    have hpEv : paceEvents env out
        = [.timing (paceEnumOf out) (metricNameFor env (paceEnumOf out))
            (env.elapsed / (pipelineWritten env out / 1000))] := by
      unfold paceEvents
      rw [if_neg (by omega)]
      unfold emitTiming
      rw [if_pos hpName]
    refine ⟨out.directWrites.map .wrote ++ errEvents env out ++ branchEvents env out
        ++ closeEvents out,
      metricNameFor env (counterEnumOf out), metricNameFor env (paceEnumOf out), ?_⟩
    rw [hWpipe]
    simp only [pipelineRequestHandler, hcEv, hpEv, List.append_assoc, List.cons_append,
      List.nil_append]

/-- A configured environment with the identity name transformation. -/
def C3env : PipelineEnv := ⟨true, metricNameString, [], none, 5000⟩

/-- A hijack outcome carrying a small response. -/
def C3out : HijackerOutcome := ⟨true, some ⟨200, [], "ok"⟩, none, []⟩

theorem C3_counters_and_pace_witness :
    (metricNameFor C3env .hijackedRequestCounter ≠ "" ∧
      metricNameFor C3env .proxiedRequestCounter ≠ "" ∧
      metricNameFor C3env .hijackedRequestTransferPace ≠ "" ∧
      metricNameFor C3env .proxiedRequestTransferPace ≠ "") ∧
    countIncOf (counterEnumOf C3out) (pipelineRequestHandler C3env C3out) = 1 :=
  ⟨⟨by decide, by decide, by decide, by decide⟩,
    (C3_counters_and_pace C3env C3out (by decide) (by decide) (by decide)
      (by decide)).2.1⟩

/-! ## Claim C5: verbatim delivery of a hijacked response -/

/-- Claim C5: when the hijacker returns (true, response, nil) with a
non-nil response and the body copy is not interrupted, the pipeline
copies the response's headers into the writer, writes its status code,
then its body bytes unmodified and in order, and nothing further is
written afterwards (status and headers precede all body bytes). -/
theorem C5_hijacked_response_streamed (env : PipelineEnv) (out : HijackerOutcome)
    (r : Response)
    (hh : out.hijacked = true) (he : out.error = none) (hr : out.response = some r)
    (hcap : env.copyCap = none) :
    ∃ tail,
      pipelineRequestHandler env out
        = out.directWrites.map .wrote
            ++ [.copiedHeaders r.headers, .wrote (.header r.statusCode),
                .wrote (.data r.body), .closedBody] ++ tail ∧
      ∀ w : WriteEvent, Event.wrote w ∉ tail := by
  have heff : effectiveHijacked out = true := by
    simp [effectiveHijacked, he, hh]
  have herr : errEvents env out = [] := by
    simp [errEvents, he]
  have hbr : branchEvents env out
      = [.copiedHeaders r.headers, .wrote (.header r.statusCode),
         .wrote (.data r.body)] := by
    simp [branchEvents, heff, hr, copiedBody, hcap]
  have hcl : closeEvents out = [Event.closedBody] := by
    simp [closeEvents, heff, hr]
  refine ⟨counterEvents env out ++ paceEvents env out, ?_, ?_⟩
  · simp only [pipelineRequestHandler, herr, hbr, hcl, List.append_assoc,
      List.cons_append, List.nil_append]
  · intro w hw
    rcases List.mem_append.mp hw with h1 | h2
    · exact wrote_not_mem_emitInc env _ w h1
    · revert h2
      unfold paceEvents
      by_cases hlt : pipelineWritten env out < 1000
      · rw [if_pos hlt]
        simp
      · rw [if_neg hlt]
        exact fun h2 => wrote_not_mem_emitTiming env _ _ w h2

/-- An environment whose client accepts the whole body. -/
def C5env : PipelineEnv := ⟨true, metricNameString, [], none, 3⟩

/-- A hijack outcome with a response to stream. -/
def C5out : HijackerOutcome :=
  ⟨true, some ⟨200, [("Content-Type", "application/json")], "hello"⟩, none, []⟩

theorem C5_hijacked_response_streamed_witness :
    C5out.hijacked = true ∧ C5out.error = none ∧
    C5out.response = some ⟨200, [("Content-Type", "application/json")], "hello"⟩ ∧
    C5env.copyCap = none ∧
    ∃ tail,
      pipelineRequestHandler C5env C5out
        = C5out.directWrites.map .wrote
            ++ [.copiedHeaders [("Content-Type", "application/json")],
                .wrote (.header 200), .wrote (.data "hello"), .closedBody] ++ tail ∧
      ∀ w : WriteEvent, Event.wrote w ∉ tail :=
  ⟨rfl, rfl, rfl, rfl,
    C5_hijacked_response_streamed C5env C5out
      ⟨200, [("Content-Type", "application/json")], "hello"⟩ rfl rfl rfl rfl⟩

/-! ## Claim C9: the response body is closed exactly once -/

/-- Claim C9: whenever the hijacker hands the pipeline a response with
no error — whether the body copy succeeds, errors, or the client
disconnects mid-stream (any copyCap) — the pipeline closes that
response's body exactly once before returning. -/
theorem C9_body_closed_exactly_once (env : PipelineEnv) (out : HijackerOutcome)
    (r : Response)
    (hh : out.hijacked = true) (he : out.error = none) (hr : out.response = some r) :
    countClose (pipelineRequestHandler env out) = 1 := by
  have heff : effectiveHijacked out = true := by
    simp [effectiveHijacked, he, hh]
  have hcl : closeEvents out = [Event.closedBody] := by
    simp [closeEvents, heff, hr]
  simp only [pipelineRequestHandler, countClose_append]
  rw [countClose_map_wrote, countClose_errEvents, countClose_branchEvents, hcl,
    countClose_counterEvents, countClose_paceEvents]
  simp [countClose, List.filter, isClose]

/-- An environment whose client disconnects after two bytes of body. -/
def C9env : PipelineEnv := ⟨true, metricNameString, [], some 2, 3⟩

/-- A hijack outcome with a response whose copy will be cut short. -/
def C9out : HijackerOutcome := ⟨true, some ⟨200, [], "hello"⟩, none, []⟩

theorem C9_body_closed_exactly_once_witness :
    C9out.hijacked = true ∧ C9out.error = none ∧
    C9out.response = some ⟨200, [], "hello"⟩ ∧
    countClose (pipelineRequestHandler C9env C9out) = 1 :=
  ⟨rfl, rfl, rfl,
    C9_body_closed_exactly_once C9env C9out ⟨200, [], "hello"⟩ rfl rfl rfl⟩

end KrakenProxy
